import Mathlib

/-!
Verification of the secondary-index subsystem (dataport server, admin HTTP
dispatcher, index coordinator, compaction scheduler) against its
natural-language specification.  Go maps are embedded as association lists
(insertion-ordered, a deterministic refinement of the nondeterministic Go map
iteration order), Go slices as lists, machine integers as Nat with explicit
reductions where a narrowing cast occurs, and fallible code as Option.
-/

set_option maxRecDepth 4000

/-! ### Association-list helpers (embedding of Go maps) -/

/-- Lookup in an association list; embeds a Go map read returning (value, ok). -/
def lookupA {κ α : Type} [DecidableEq κ] : List (κ × α) → κ → Option α
  | [], _ => none
  | (k2, v) :: t, k => if k2 = k then some v else lookupA t k

/-- Lookup with a default; embeds a Go map read of a missing key yielding the
zero value (nil slice). -/
def lookupD {κ α : Type} [DecidableEq κ] (m : List (κ × α)) (k : κ) (d : α) : α :=
  (lookupA m k).getD d

/-- Map store; embeds a Go map assignment (replace if present, else add). -/
def setA {κ α : Type} [DecidableEq κ] : List (κ × α) → κ → α → List (κ × α)
  | [], k, v => [(k, v)]
  | (k2, v2) :: t, k, v => if k2 = k then (k, v) :: t else (k2, v2) :: setA t k v

/-- Map delete; embeds the Go builtin delete over a map. -/
def eraseA {κ α : Type} [DecidableEq κ] (m : List (κ × α)) (k : κ) : List (κ × α) :=
  m.filter (fun p => decide (p.1 ≠ k))

/-- Key list of an association list. -/
def keysA {κ α : Type} (m : List (κ × α)) : List κ := m.map Prod.fst

/-- Value list of an association list. -/
def valuesA {κ α : Type} (m : List (κ × α)) : List α := m.map Prod.snd

theorem lookupA_mem {κ α : Type} [DecidableEq κ] {m : List (κ × α)} {k : κ} {v : α}
    (h : lookupA m k = some v) : (k, v) ∈ m := by
  induction m with
  | nil => simp [lookupA] at h
  | cons p t ih =>
    obtain ⟨k2, v2⟩ := p
    by_cases hk : k2 = k
    · subst hk
      simp [lookupA] at h
      simp [h]
    · simp [lookupA, hk] at h
      exact List.mem_cons_of_mem _ (ih h)

theorem setA_not_mem_key {κ α : Type} [DecidableEq κ] {m : List (κ × α)} {k : κ} (v : α)
    (h : k ∉ keysA m) : setA m k v = m ++ [(k, v)] := by
  induction m with
  | nil => simp [setA]
  | cons p t ih =>
    obtain ⟨k2, v2⟩ := p
    have h1 : ¬ k2 = k := by
      intro e
      exact h (by simp [keysA, e])
    have h2 : k ∉ keysA t := by
      intro e
      exact h (by simp [keysA] at e ⊢; exact Or.inr e)
    simp [setA, h1, ih h2]

theorem lookupA_eraseA {κ α : Type} [DecidableEq κ] (m : List (κ × α)) (k : κ) :
    lookupA (eraseA m k) k = none := by
  induction m with
  | nil => simp [eraseA, lookupA]
  | cons p t ih =>
    obtain ⟨k2, v2⟩ := p
    by_cases hk : k2 = k
    · subst hk
      simpa [eraseA, lookupA] using ih
    · simpa [eraseA, lookupA, hk] using ih

theorem mem_eraseA {κ α : Type} [DecidableEq κ] {m : List (κ × α)} {k : κ} {p : κ × α}
    (h : p ∈ eraseA m k) : p ∈ m := by
  exact (List.mem_filter.mp h).1

/-! ### Dataport server embedding (src/secondary/adminport/admin_stats.go,
dataport package)

The serial gen-server actor owns the connection table and the remote-uuid
map.  Network sockets and goroutine spawning are pure effects here: a step
returns the updated actor state together with the observable effects of
handling one message (sideband events sent, workers started, connections
closed, whether a full Close was scheduled). -/

/-- Bucket-vbucket identity, struct bucketVbno. The Go field vbno is uint16;
the only producer narrows a uint32 with an explicit reduction mod 2^16 in
the vbmap step below. -/
structure BucketVbno where
  bucket : String
  vbno : Nat
deriving DecidableEq, Repr

/-- Sideband events sent to the application: RestartVbuckets and
ShutdownDataport slices, each a list of (Bucket, Vbuckets) groups. -/
inductive Sideband where
  | restart (groups : List (String × List Nat))
  | shutdownDP (groups : List (String × List Nat))
deriving DecidableEq, Repr

/-- Errors carried by serverMessage.err. GoErr.eof is io.EOF, GoErr.timeout a
net.Error with Timeout() true; the remaining constructors are the dataport
error values, none of which is io.EOF or a timeout. -/
inductive GoErr where
  | eof
  | timeout
  | payload
  | workerKilled
  | daemonExit
  | vbmapErr
  | generic
deriving DecidableEq, Repr

/-- Messages handled by the gen-server loop (struct serverMessage, cmd codes
serverCmdNewConnection, serverCmdVbmap, serverCmdVbcontrol, serverCmdError,
serverCmdClose). -/
inductive ServerMsg where
  | newConnection (raddr : String)
  | vbmap (raddr : String) (bucket : String) (vbuckets : List Nat)
  | vbcontrol (raddr : String) (started finished : List BucketVbno)
  | error (raddr : String) (e : GoErr)
  | close
deriving DecidableEq, Repr

/-- Actor state of the dataport server: the keys of the conns map, the
remote-uuid map (a local of genServer), and whether handleClose has run
(listener nil, finch closed, loop exited). -/
structure DPState where
  conns : List String
  remoteUuids : List (String × List BucketVbno)
  serverClosed : Bool
deriving DecidableEq, Repr

/-- Observable effects of one gen-server step. -/
structure DPEffects where
  sideband : List Sideband
  workersStarted : List String
  connsClosed : List String
  scheduledClose : Bool
deriving DecidableEq, Repr

/-- Effectless step result. -/
def noEffects : DPEffects :=
  { sideband := [], workersStarted := [], connsClosed := [], scheduledClose := false }

/-- Initial state of a freshly created server (NewServer). -/
def dpInit : DPState := { conns := [], remoteUuids := [], serverClosed := false }

/-- Embedding of net.SplitHostPort restricted to plain host:port strings:
split at the last colon; an address without a colon is an error (none).
Bracketed IPv6 forms are not used by this subsystem. -/
def splitHostPort (s : String) : Option (String × String) :=
  let rev := s.data.reverse
  let p := rev.takeWhile (fun c => !(c = ':'))
  if p.length = rev.length then none
  else some (String.mk (rev.drop (p.length + 1)).reverse, String.mk p.reverse)

/-- Host part of an address as used by closeRemoteHost and
remoteConnections, which ignore the SplitHostPort error (host is then
the empty string). -/
def hostOf (raddr : String) : String :=
  match splitHostPort raddr with
  | some hp => hp.1
  | none => ""

/-- Inner loop of addUuids: does a started uuid collide with an uuid already
live on this connection (componentwise equality on bucket and vbno)? -/
def hasDupIn (adduuid : BucketVbno) (uuids : List BucketVbno) : Bool :=
  uuids.any (fun uuid => uuid.bucket = adduuid.bucket && uuid.vbno = adduuid.vbno)

/-- Server.addUuids: reject with ErrorDuplicateStreamBegin when any started
uuid already occurs in uuids, else append started to uuids. -/
def addUuids (started uuids : List BucketVbno) : Option (List BucketVbno) :=
  if started.any (fun adduuid => hasDupIn adduuid uuids) then none
  else some (uuids ++ started)

/-- Server.delUuids: keep the uuids that match no finished uuid. -/
def delUuids (finished uuids : List BucketVbno) : List BucketVbno :=
  uuids.filter (fun uuid => !(hasDupIn uuid finished))

/-- The function remoteConnections: all connection addresses whose parsed
host equals the given host. -/
def remoteConnections (host : String) (conns : List String) : List String :=
  conns.filter (fun s => hostOf s = host)

/-- The function closeRemoteHost: close every connection sharing the faulted
address's host; returns the closed addresses and the shrunk conns table. -/
def closeRemoteHost (raddr : String) (conns : List String) :
    List String × List String :=
  if raddr ∈ conns then
    let host := hostOf raddr
    let closed := remoteConnections host conns
    (closed, conns.filter (fun c => !(closed.contains c)))
  else ([], conns)

/-- The function closeConnections as a fuel-indexed loop (fuel bounds the
iteration count; each iteration closes the head host group, so the key list
strictly shrinks and fuel equal to the list length suffices).  Returns the
closed addresses in order. -/
def closeConnsLoop : Nat → List String → List String
  | 0, _ => []
  | _ + 1, [] => []
  | n + 1, r :: rest =>
    let res := closeRemoteHost r (r :: rest)
    res.1 ++ closeConnsLoop n res.2

/-- The function vbucketsForRemote restricted to one uuid: fold one BVB into
the per-bucket groups map (append to the bucket's group, create it last when
absent). -/
def appendVb : List (String × List Nat) → String → Nat → List (String × List Nat)
  | [], b, v => [(b, [v])]
  | (b2, vs) :: t, b, v =>
    if b2 = b then (b2, vs ++ [v]) :: t else (b2, vs) :: appendVb t b v

/-- The function vbucketsForRemote: fold one remote connection's uuids into
the accumulated per-bucket groups. -/
def vbucketsForRemote (uuids : List BucketVbno) (buckets : List (String × List Nat)) :
    List (String × List Nat) :=
  uuids.foldl (fun bs uuid => appendVb bs uuid.bucket uuid.vbno) buckets

/-- The function vbucketsForRemotes: gather the groups over every entry of
the remote-uuid map (used by the closeall policy). -/
def vbucketsForRemotes (remotes : List (String × List BucketVbno)) :
    List (String × List Nat) :=
  remotes.foldl (fun bs e => vbucketsForRemote e.2 bs) []

/-- Server.handleNewConnection: reject an unparsable address or a duplicate
client, else record the connection (worker channel allocated, active false). -/
def handleNewConnection (s : DPState) (raddr : String) : Bool :=
  (splitHostPort raddr).isSome && !(s.conns.contains raddr)

/-- Server.handleClose: close the listener, close every connection via
closeConnections, set conns to nil, close finch, exit the loop.  No sideband
event is emitted. -/
def handleClose (s : DPState) : DPState × DPEffects :=
  ({ conns := [], remoteUuids := s.remoteUuids, serverClosed := true },
   { sideband := [], workersStarted := [],
     connsClosed := closeConnsLoop s.conns.length s.conns, scheduledClose := false })

/-- One iteration of Server.genServer: handle one message from the request
channel, mutate the actor state, and send at most one sideband event.  The
serverCmdVbcontrol branch panics on an addUuids error; the deferred recover
runs handleClose, so that branch is embedded as handleClose.  A message
arriving after the loop has exited is not processed. -/
def serverStep (s : DPState) (msg : ServerMsg) : DPState × DPEffects :=
  if s.serverClosed then (s, noEffects)
  else
    match msg with
    | ServerMsg.newConnection raddr =>
      if handleNewConnection s raddr then
        ({ conns := s.conns ++ [raddr],
           remoteUuids := setA s.remoteUuids raddr [],
           serverClosed := false },
         { sideband := [], workersStarted := [raddr], connsClosed := [],
           scheduledClose := false })
      else
        (s, { sideband := [], workersStarted := [], connsClosed := [raddr],
              scheduledClose := false })
    | ServerMsg.vbmap raddr b vbuckets =>
      let add := vbuckets.map (fun vbno => BucketVbno.mk b (vbno % 65536))
      ({ conns := s.conns,
         remoteUuids := setA s.remoteUuids raddr (lookupD s.remoteUuids raddr [] ++ add),
         serverClosed := false },
       { sideband := [], workersStarted := [raddr], connsClosed := [],
         scheduledClose := false })
    | ServerMsg.vbcontrol raddr started finished =>
      let uuids := lookupD s.remoteUuids raddr []
      match (if started.isEmpty then some uuids else addUuids started uuids) with
      | none => handleClose s
      | some u1 =>
        let u2 := if finished.isEmpty then u1 else delUuids finished u1
        ({ conns := s.conns,
           remoteUuids := setA s.remoteUuids raddr u2,
           serverClosed := false },
         { sideband := [], workersStarted := [raddr], connsClosed := [],
           scheduledClose := false })
    | ServerMsg.error raddr e =>
      if raddr ∈ s.conns then
        match e with
        | GoErr.eof =>
          let res := closeRemoteHost raddr s.conns
          let groups := res.1.foldl
            (fun bs c => vbucketsForRemote (lookupD s.remoteUuids c []) bs) []
          ({ conns := res.2, remoteUuids := s.remoteUuids, serverClosed := false },
           { sideband := [Sideband.restart groups], workersStarted := [],
             connsClosed := res.1, scheduledClose := false })
        | GoErr.timeout =>
          let res := closeRemoteHost raddr s.conns
          let groups := res.1.foldl
            (fun bs c => vbucketsForRemote (lookupD s.remoteUuids c []) bs) []
          ({ conns := res.2, remoteUuids := s.remoteUuids, serverClosed := false },
           { sideband := [Sideband.restart groups], workersStarted := [],
             connsClosed := res.1, scheduledClose := false })
        | _ =>
          (s, { sideband := [Sideband.shutdownDP (vbucketsForRemotes s.remoteUuids)],
                workersStarted := [], connsClosed := [], scheduledClose := true })
      else (s, noEffects)
    | ServerMsg.close => handleClose s

/-- Run the gen-server over a message sequence, collecting the sideband
events in order. -/
def runSteps : DPState → List ServerMsg → DPState × List Sideband
  | s, [] => (s, [])
  | s, m :: ms =>
    let r1 := serverStep s m
    let r2 := runSteps r1.1 ms
    (r2.1, r1.2.sideband ++ r2.2)

/-! ### Dataport lemmas -/

theorem hasDupIn_iff (a : BucketVbno) (uuids : List BucketVbno) :
    hasDupIn a uuids = true ↔ a ∈ uuids := by
  obtain ⟨b, v⟩ := a
  simp only [hasDupIn, List.any_eq_true, Bool.and_eq_true, decide_eq_true_eq]
  constructor
  · rintro ⟨⟨b2, v2⟩, hm, h1, h2⟩
    simp at h1 h2
    subst h1
    subst h2
    exact hm
  · intro hm
    exact ⟨⟨b, v⟩, hm, by simp⟩

theorem addUuids_none_iff (started uuids : List BucketVbno) :
    addUuids started uuids = none ↔ ∃ bv ∈ started, bv ∈ uuids := by
  unfold addUuids
  by_cases h : started.any (fun adduuid => hasDupIn adduuid uuids) = true
  · simp only [h, if_true, true_iff]
    simp only [List.any_eq_true] at h
    obtain ⟨a, ha, hd⟩ := h
    exact ⟨a, ha, (hasDupIn_iff a uuids).mp hd⟩
  · simp only [h, if_false, Bool.false_eq_true]
    simp only [List.any_eq_true] at h
    constructor
    · intro hc
      exact absurd hc (by simp)
    · rintro ⟨a, ha, hm⟩
      exact absurd ⟨a, ha, (hasDupIn_iff a uuids).mpr hm⟩ h

/-- Claim C1, counterexample.  Two connections from distinct remote addresses
each claim vbucket 7 of bucket b through a StreamBegin (vb-control) message;
the actor folds both into the remote-uuid map without detecting a duplicate:
the pair (b,7) ends up under both addresses, the server stays up, and no
sideband event (in particular no ShutdownDataport) is emitted. -/
theorem bvb_unique_across_raddrs_cex :
    lookupD (runSteps dpInit
        [ServerMsg.newConnection "h1:9", ServerMsg.newConnection "h2:9",
         ServerMsg.vbcontrol "h1:9" [BucketVbno.mk "b" 7] [],
         ServerMsg.vbcontrol "h2:9" [BucketVbno.mk "b" 7] []]).1.remoteUuids
      "h1:9" [] = [BucketVbno.mk "b" 7] ∧
    lookupD (runSteps dpInit
        [ServerMsg.newConnection "h1:9", ServerMsg.newConnection "h2:9",
         ServerMsg.vbcontrol "h1:9" [BucketVbno.mk "b" 7] [],
         ServerMsg.vbcontrol "h2:9" [BucketVbno.mk "b" 7] []]).1.remoteUuids
      "h2:9" [] = [BucketVbno.mk "b" 7] ∧
    (runSteps dpInit
        [ServerMsg.newConnection "h1:9", ServerMsg.newConnection "h2:9",
         ServerMsg.vbcontrol "h1:9" [BucketVbno.mk "b" 7] [],
         ServerMsg.vbcontrol "h2:9" [BucketVbno.mk "b" 7] []]).1.serverClosed = false ∧
    (runSteps dpInit
        [ServerMsg.newConnection "h1:9", ServerMsg.newConnection "h2:9",
         ServerMsg.vbcontrol "h1:9" [BucketVbno.mk "b" 7] [],
         ServerMsg.vbcontrol "h2:9" [BucketVbno.mk "b" 7] []]).2 = [] := by
  decide

/-- Claim C1, amended.  Duplicate detection in addUuids is scoped to a single
connection: addUuids fails exactly when a started BVB is already in the same
connection's uuid list, and on such a duplicate the actor treats the error as
fatal (panic, recovered by handleClose): every connection is closed and the
server shuts down, with no sideband event emitted. -/
theorem duplicate_streambegin_fatal_local :
    (∀ (started uuids : List BucketVbno),
      addUuids started uuids = none ↔ ∃ bv ∈ started, bv ∈ uuids) ∧
    (∀ (s : DPState) (raddr : String) (started finished : List BucketVbno),
      s.serverClosed = false →
      (∃ bv ∈ started, bv ∈ lookupD s.remoteUuids raddr []) →
      serverStep s (ServerMsg.vbcontrol raddr started finished) = handleClose s ∧
      (handleClose s).1.serverClosed = true ∧
      (handleClose s).1.conns = [] ∧
      (handleClose s).2.sideband = []) := by
  refine ⟨addUuids_none_iff, ?_⟩
  intro s raddr started finished hopen hdup
  have hadd : addUuids started (lookupD s.remoteUuids raddr []) = none :=
    (addUuids_none_iff started (lookupD s.remoteUuids raddr [])).mpr hdup
  have hne : started.isEmpty = false := by
    obtain ⟨bv, hbv, _⟩ := hdup
    cases started with
    | nil => cases hbv
    | cons a t => rfl
  refine ⟨?_, rfl, rfl, rfl⟩
  simp only [serverStep, hopen, Bool.false_eq_true, if_false, hne, hadd]

/-- Witness for duplicate_streambegin_fatal_local at a concrete state with
vbucket (b,7) already live on connection h:1. -/
theorem duplicate_streambegin_fatal_local_witness :
    serverStep (DPState.mk ["h:1"] [("h:1", [BucketVbno.mk "b" 7])] false)
        (ServerMsg.vbcontrol "h:1" [BucketVbno.mk "b" 7] []) =
      handleClose (DPState.mk ["h:1"] [("h:1", [BucketVbno.mk "b" 7])] false) :=
  (duplicate_streambegin_fatal_local.2
    (DPState.mk ["h:1"] [("h:1", [BucketVbno.mk "b" 7])] false)
    "h:1" [BucketVbno.mk "b" 7] [] (by decide)
    ⟨BucketVbno.mk "b" 7, by decide, by decide⟩).1

/-- Claim C4, counterexample.  Handling a new-connection message for a fresh
remote address starts the reader for that connection immediately (genServer
calls startWorker right after handleNewConnection succeeds), before any vbmap
message has arrived. -/
theorem new_connection_starts_reader_cex :
    (serverStep dpInit (ServerMsg.newConnection "10.0.0.1:5000")).2.workersStarted
      = ["10.0.0.1:5000"] := by
  decide

/-- Claim C4, amended.  For a parsable remote address not already in the
connection table, the actor allocates the connection record, installs an
empty remote-uuid entry, starts the reader for the connection at once, and
emits no sideband event. -/
theorem new_connection_step_spec :
    ∀ (s : DPState) (raddr : String),
      s.serverClosed = false →
      (splitHostPort raddr).isSome →
      raddr ∉ s.conns →
      serverStep s (ServerMsg.newConnection raddr) =
        (DPState.mk (s.conns ++ [raddr]) (setA s.remoteUuids raddr []) false,
         DPEffects.mk [] [raddr] [] false) := by
  intro s raddr hopen hparse hmem
  have hnew : handleNewConnection s raddr = true := by
    simp [handleNewConnection, hparse, hmem]
  simp only [serverStep, hopen, Bool.false_eq_true, if_false, hnew, if_true]

/-- Witness for new_connection_step_spec at the empty server state and the
address 10.0.0.1:5000. -/
theorem new_connection_step_spec_witness :
    serverStep dpInit (ServerMsg.newConnection "10.0.0.1:5000") =
      (DPState.mk ["10.0.0.1:5000"] [("10.0.0.1:5000", [])] false,
       DPEffects.mk [] ["10.0.0.1:5000"] [] false) := by
  have h := new_connection_step_spec dpInit "10.0.0.1:5000" (by decide) (by decide)
    (by decide)
  exact h.trans (by decide)

/-! ### Reader scan embedding (doReceive / updateActiveVbuckets) -/

/-- Key-versions entry of a VbKeyVersions batch: a sequence number and the
command list (protobuf KeyVersions; commands are uint32 values). -/
structure KeyVersions where
  seqno : Nat
  commands : List Nat
deriving DecidableEq, Repr

/-- One vbucket's batch entry (protobuf VbKeyVersions): bucket name, vbucket
number (uint32 on the wire, narrowed to uint16 by the scan) and the kv list. -/
structure VbKeyVersions where
  bucketname : String
  vbucket : Nat
  kvs : List KeyVersions
deriving DecidableEq, Repr

/-- Modelled from the spec: the command code c.StreamBegin of the common
package, which is not under src; spec section 6 fixes StreamBegin = 1. -/
def streamBeginCmd : Nat := 1

/-- Modelled from the spec: the command code c.StreamEnd of the common
package, which is not under src; spec section 6 fixes StreamEnd = 2. -/
def streamEndCmd : Nat := 2

/-- Inner loop of updateActiveVbuckets in doReceive over one vbucket's kvs:
the classification reads kv.GetCommands()[0] unconditionally; an empty
command list makes that access out of bounds, embedded as none.  The byte
cast of the uint32 command is the reduction mod 2^8. -/
def classifyKvs (bucket : String) (vbno : Nat) :
    List KeyVersions → List BucketVbno × List BucketVbno →
    Option (List BucketVbno × List BucketVbno)
  | [], acc => some acc
  | kv :: rest, acc =>
    match kv.commands with
    | [] => none
    | c :: _ =>
      let acc2 :=
        if c % 256 = streamBeginCmd then (acc.1 ++ [BucketVbno.mk bucket vbno], acc.2)
        else if c % 256 = streamEndCmd then (acc.1, acc.2 ++ [BucketVbno.mk bucket vbno])
        else acc
      classifyKvs bucket vbno rest acc2

/-- The function updateActiveVbuckets of doReceive: scan a batch, collecting
the started (StreamBegin) and finished (StreamEnd) BVBs into the
accumulator; none embeds the out-of-bounds index panic. -/
def updateActiveVbuckets :
    List VbKeyVersions → List BucketVbno × List BucketVbno →
    Option (List BucketVbno × List BucketVbno)
  | [], acc => some acc
  | vb :: rest, acc =>
    match classifyKvs vb.bucketname (vb.vbucket % 65536) vb.kvs acc with
    | none => none
    | some acc2 => updateActiveVbuckets rest acc2

/-- Claim C10, counterexample.  A batch holding one key-version whose command
list is empty makes the scan access commands[0] out of bounds: the embedded
classification hits its none branch (in Go, a runtime index panic inside the
reader goroutine). -/
theorem scan_empty_commands_cex :
    updateActiveVbuckets [VbKeyVersions.mk "b" 0 [KeyVersions.mk 1 []]] ([], [])
      = none := by
  decide

theorem classifyKvs_isSome (bucket : String) (vbno : Nat) :
    ∀ (kvs : List KeyVersions) (acc : List BucketVbno × List BucketVbno),
      (∀ kv ∈ kvs, kv.commands ≠ []) →
      (classifyKvs bucket vbno kvs acc).isSome = true := by
  intro kvs
  induction kvs with
  | nil => intro acc _; rfl
  | cons kv rest ih =>
    intro acc h
    have hkv : kv.commands ≠ [] := h kv (by simp)
    cases hc : kv.commands with
    | nil => exact absurd hc hkv
    | cons c cs =>
      simp only [classifyKvs, hc]
      exact ih _ (fun k hk => h k (List.mem_cons_of_mem _ hk))

/-- Claim C10, amended.  The scan of a VbKeyVersions batch is total exactly
on batches in which every key-version carries at least one command (the wire
contract of spec section 6); under that precondition the commands[0]
classification never reaches its out-of-bounds branch. -/
theorem scan_total_nonempty_commands :
    ∀ (vbs : List VbKeyVersions) (acc : List BucketVbno × List BucketVbno),
      (∀ vb ∈ vbs, ∀ kv ∈ vb.kvs, kv.commands ≠ []) →
      (updateActiveVbuckets vbs acc).isSome = true := by
  intro vbs
  induction vbs with
  | nil => intro acc _; rfl
  | cons vb rest ih =>
    intro acc h
    have hvb := classifyKvs_isSome vb.bucketname (vb.vbucket % 65536) vb.kvs acc
      (h vb (by simp))
    cases hc : classifyKvs vb.bucketname (vb.vbucket % 65536) vb.kvs acc with
    | none => rw [hc] at hvb; cases hvb
    | some acc2 =>
      simp only [updateActiveVbuckets, hc]
      exact ih _ (fun v hv k hk => h v (List.mem_cons_of_mem _ hv) k hk)

/-- Witness for scan_total_nonempty_commands on a batch containing a
StreamBegin, an ordinary upsert command and a StreamEnd. -/
theorem scan_total_nonempty_commands_witness :
    (updateActiveVbuckets
        [VbKeyVersions.mk "b" 0 [KeyVersions.mk 1 [1], KeyVersions.mk 2 [17]],
         VbKeyVersions.mk "b" 1 [KeyVersions.mk 3 [2]]] ([], [])).isSome = true :=
  scan_total_nonempty_commands _ ([], []) (by decide)

/-! ### Scoped-close lemmas (claim C5) -/

/-- Membership of a (bucket, vbno) pair in a per-bucket group list,
expressed through the flattened pair list of the groups. -/
def bvInGroups (groups : List (String × List Nat)) (b : String) (v : Nat) : Prop :=
  (b, v) ∈ groups.flatMap (fun g => g.2.map (fun v2 => (g.1, v2)))

theorem bvInGroups_appendVb (bs : List (String × List Nat)) (b2 : String) (v2 : Nat)
    (b : String) (v : Nat) :
    bvInGroups (appendVb bs b2 v2) b v ↔ bvInGroups bs b v ∨ (b = b2 ∧ v = v2) := by
  induction bs with
  | nil =>
    simp [appendVb, bvInGroups]
  | cons hd t ih =>
    obtain ⟨bh, vsh⟩ := hd
    by_cases hb : bh = b2
    · subst hb
      simp only [bvInGroups] at *
      rw [appendVb, if_pos rfl]
      simp only [List.flatMap_cons, List.mem_append, List.mem_map, Prod.mk.injEq] at *
      aesop
    · simp only [bvInGroups] at *
      rw [appendVb, if_neg hb]
      simp only [List.flatMap_cons, List.mem_append] at *
      tauto

theorem bvInGroups_vbucketsForRemote (uuids : List BucketVbno)
    (bs : List (String × List Nat)) (b : String) (v : Nat) :
    bvInGroups (vbucketsForRemote uuids bs) b v ↔
      bvInGroups bs b v ∨ BucketVbno.mk b v ∈ uuids := by
  induction uuids generalizing bs with
  | nil => simp [vbucketsForRemote]
  | cons u rest ih =>
    obtain ⟨ub, uv⟩ := u
    simp only [vbucketsForRemote, List.foldl_cons] at ih ⊢
    rw [ih, bvInGroups_appendVb]
    constructor
    · rintro ((h | ⟨hb, hv⟩) | h)
      · exact Or.inl h
      · subst hb
        subst hv
        exact Or.inr (by simp)
      · exact Or.inr (List.mem_cons_of_mem _ h)
    · rintro (h | h)
      · exact Or.inl (Or.inl h)
      · rcases List.mem_cons.mp h with h | h
        · cases h
          exact Or.inl (Or.inr ⟨rfl, rfl⟩)
        · exact Or.inr h

theorem bvInGroups_foldRemotes (f : String → List BucketVbno) (closed : List String)
    (acc : List (String × List Nat)) (b : String) (v : Nat) :
    bvInGroups (closed.foldl (fun bs c => vbucketsForRemote (f c) bs) acc) b v ↔
      bvInGroups acc b v ∨ ∃ c ∈ closed, BucketVbno.mk b v ∈ f c := by
  induction closed generalizing acc with
  | nil => simp
  | cons c rest ih =>
    simp only [List.foldl_cons]
    rw [ih, bvInGroups_vbucketsForRemote]
    constructor
    · rintro ((h | h) | h)
      · exact Or.inl h
      · exact Or.inr ⟨c, by simp, h⟩
      · obtain ⟨c2, hc2, hm⟩ := h
        exact Or.inr ⟨c2, List.mem_cons_of_mem _ hc2, hm⟩
    · rintro (h | ⟨c2, hc2, hm⟩)
      · exact Or.inl (Or.inl h)
      · rcases List.mem_cons.mp hc2 with h2 | h2
        · subst h2
          exact Or.inl (Or.inr hm)
        · exact Or.inr ⟨c2, h2, hm⟩

theorem mem_keysA_appendVb (bs : List (String × List Nat)) (b : String) (v : Nat)
    (x : String) (h : x ∈ keysA (appendVb bs b v)) : x ∈ keysA bs ∨ x = b := by
  induction bs with
  | nil =>
    simp [appendVb, keysA] at h
    exact Or.inr h
  | cons hd t ih =>
    obtain ⟨bh, vs⟩ := hd
    by_cases hb : bh = b
    · subst hb
      rw [appendVb, if_pos rfl] at h
      simp [keysA] at h ⊢
      tauto
    · rw [appendVb, if_neg hb] at h
      simp [keysA] at h ⊢
      rcases h with h | h
      · tauto
      · rcases ih (by simpa [keysA] using h) with h2 | h2
        · simp [keysA] at h2
          tauto
        · tauto

theorem nodup_keysA_appendVb (bs : List (String × List Nat)) (b : String) (v : Nat)
    (h : (keysA bs).Nodup) : (keysA (appendVb bs b v)).Nodup := by
  induction bs with
  | nil => simp [appendVb, keysA]
  | cons hd t ih =>
    obtain ⟨bh, vs⟩ := hd
    simp only [keysA, List.map_cons, List.nodup_cons] at h
    by_cases hb : bh = b
    · subst hb
      rw [appendVb, if_pos rfl]
      simp only [keysA, List.map_cons, List.nodup_cons]
      exact ⟨by simpa [keysA] using h.1, h.2⟩
    · rw [appendVb, if_neg hb]
      simp only [keysA, List.map_cons, List.nodup_cons]
      refine ⟨?_, ih h.2⟩
      intro hmem
      rcases mem_keysA_appendVb t b v bh (by simpa [keysA] using hmem) with h2 | h2
      · exact h.1 (by simpa [keysA] using h2)
      · exact hb h2

theorem nodup_keysA_vbucketsForRemote (uuids : List BucketVbno)
    (bs : List (String × List Nat)) (h : (keysA bs).Nodup) :
    (keysA (vbucketsForRemote uuids bs)).Nodup := by
  induction uuids generalizing bs with
  | nil => simpa [vbucketsForRemote]
  | cons u rest ih =>
    simp only [vbucketsForRemote, List.foldl_cons] at ih ⊢
    exact ih _ (nodup_keysA_appendVb bs u.bucket u.vbno h)

theorem nodup_keysA_foldRemotes (f : String → List BucketVbno) (closed : List String)
    (acc : List (String × List Nat)) (h : (keysA acc).Nodup) :
    (keysA (closed.foldl (fun bs c => vbucketsForRemote (f c) bs) acc)).Nodup := by
  induction closed generalizing acc with
  | nil => simpa
  | cons c rest ih =>
    simp only [List.foldl_cons]
    exact ih _ (nodup_keysA_vbucketsForRemote (f c) acc h)

theorem closeRemoteHost_mem (raddr : String) (conns : List String)
    (h : raddr ∈ conns) :
    closeRemoteHost raddr conns =
      (conns.filter (fun c => decide (hostOf c = hostOf raddr)),
       conns.filter (fun c => !(decide (hostOf c = hostOf raddr)))) := by
  rw [closeRemoteHost, if_pos h]
  refine congrArg _ ?_
  apply List.filter_congr
  intro c hc
  by_cases hh : hostOf c = hostOf raddr
  · have hmem : c ∈ remoteConnections (hostOf raddr) conns :=
      List.mem_filter.mpr ⟨hc, by simp [hh]⟩
    simp [List.contains, List.elem_iff, hmem, hh]
  · have hmem : c ∉ remoteConnections (hostOf raddr) conns := by
      intro hx
      exact hh (by simpa using (List.mem_filter.mp hx).2)
    simp [List.contains, List.elem_iff, hmem, hh]

/-- Claim C5.  On error(raddr, io.EOF) or a network timeout for a tracked
connection, the actor closes exactly the connections whose parsed host equals
the faulted address's host (connections on other hosts stay in the table),
emits exactly one RestartVbuckets sideband event whose groups contain
precisely the BVBs recorded for the closed connections, grouped by bucket
(one group per bucket), and schedules no shutdown. -/
theorem error_eof_timeout_scoped_close :
    ∀ (s : DPState) (raddr : String) (e : GoErr),
      s.serverClosed = false → raddr ∈ s.conns →
      (e = GoErr.eof ∨ e = GoErr.timeout) →
      ∃ groups,
        serverStep s (ServerMsg.error raddr e) =
          (DPState.mk (s.conns.filter (fun c => !(decide (hostOf c = hostOf raddr))))
              s.remoteUuids false,
           DPEffects.mk [Sideband.restart groups] []
              (s.conns.filter (fun c => decide (hostOf c = hostOf raddr))) false) ∧
        (∀ b v, bvInGroups groups b v ↔
          ∃ c ∈ s.conns, hostOf c = hostOf raddr ∧
            BucketVbno.mk b v ∈ lookupD s.remoteUuids c []) ∧
        (keysA groups).Nodup := by
  intro s raddr e hopen hmem he
  have hcrh := closeRemoteHost_mem raddr s.conns hmem
  rcases he with rfl | rfl <;>
  · refine ⟨(s.conns.filter (fun c => decide (hostOf c = hostOf raddr))).foldl
      (fun bs c => vbucketsForRemote (lookupD s.remoteUuids c []) bs) [], ?_, ?_, ?_⟩
    · simp only [serverStep, hopen, Bool.false_eq_true, if_false]
      rw [if_pos hmem]
      simp only [hcrh]
    · intro b v
      rw [bvInGroups_foldRemotes]
      simp only [bvInGroups, List.flatMap_nil, List.not_mem_nil, false_or]
      constructor
      · rintro ⟨c, hc, hv⟩
        have := List.mem_filter.mp hc
        exact ⟨c, this.1, by simpa using this.2, hv⟩
      · rintro ⟨c, hc, hh, hv⟩
        exact ⟨c, List.mem_filter.mpr ⟨hc, by simp [hh]⟩, hv⟩
    · exact nodup_keysA_foldRemotes _ _ [] (by simp [keysA])

/-- Witness for error_eof_timeout_scoped_close: two connections on host
10.0.0.1 and one on 10.0.0.2, with an EOF fault on the first. -/
theorem error_eof_timeout_scoped_close_witness :
    ∃ groups,
      serverStep
          (DPState.mk ["10.0.0.1:5000", "10.0.0.1:5001", "10.0.0.2:6000"]
            [("10.0.0.1:5000", [BucketVbno.mk "b" 0, BucketVbno.mk "b" 1]),
             ("10.0.0.2:6000", [BucketVbno.mk "b" 9])] false)
          (ServerMsg.error "10.0.0.1:5000" GoErr.eof) =
        (DPState.mk
            (["10.0.0.1:5000", "10.0.0.1:5001", "10.0.0.2:6000"].filter
              (fun c => !(decide (hostOf c = hostOf "10.0.0.1:5000"))))
            [("10.0.0.1:5000", [BucketVbno.mk "b" 0, BucketVbno.mk "b" 1]),
             ("10.0.0.2:6000", [BucketVbno.mk "b" 9])] false,
         DPEffects.mk [Sideband.restart groups] []
            (["10.0.0.1:5000", "10.0.0.1:5001", "10.0.0.2:6000"].filter
              (fun c => decide (hostOf c = hostOf "10.0.0.1:5000"))) false) ∧
      (∀ b v, bvInGroups groups b v ↔
        ∃ c ∈ ["10.0.0.1:5000", "10.0.0.1:5001", "10.0.0.2:6000"],
          hostOf c = hostOf "10.0.0.1:5000" ∧
            BucketVbno.mk b v ∈ lookupD
              [("10.0.0.1:5000", [BucketVbno.mk "b" 0, BucketVbno.mk "b" 1]),
               ("10.0.0.2:6000", [BucketVbno.mk "b" 9])] c []) ∧
      (keysA groups).Nodup :=
  error_eof_timeout_scoped_close
    (DPState.mk ["10.0.0.1:5000", "10.0.0.1:5001", "10.0.0.2:6000"]
      [("10.0.0.1:5000", [BucketVbno.mk "b" 0, BucketVbno.mk "b" 1]),
       ("10.0.0.2:6000", [BucketVbno.mk "b" 9])] false)
    "10.0.0.1:5000" GoErr.eof rfl (by decide) (Or.inl rfl)

/-! ### Admin HTTP server embedding (src/secondary/adminport/admin_httpd.go)

The httpServer registry maps a URL key to a registered message marshaller
(represented by its name); lis-not-nil is the started flag.  The request
dispatcher systemHandler is embedded up to the point the request is handed
to the application queue; the body-decode outcome of the registered message
type is an input (none for success, some errText for a decode failure). -/

/-- Registry-relevant state of httpServer: the URL path key map and whether
Start has run (lis is not nil). -/
structure AdminServer where
  urlPref : String
  messages : List (String × String)
  started : Bool
deriving DecidableEq, Repr

/-- Admin-surface error values ErrorRegisteringRequest and
ErrorMessageUnknown. -/
inductive AdminErr where
  | registeringRequest
  | messageUnknown
deriving DecidableEq, Repr

/-- Method httpServer.Register: forbidden after start; otherwise store the
message under the key urlPrefix concatenated with the message name. -/
def register (s : AdminServer) (name : String) : AdminServer × Option AdminErr :=
  if s.started then (s, some AdminErr.registeringRequest)
  else ({ s with messages := setA s.messages (s.urlPref ++ name) name }, none)

/-- Method httpServer.Unregister: forbidden after start; looks up the bare
message name (not the URL key) and deletes that entry, or reports
ErrorMessageUnknown when absent. -/
def unregister (s : AdminServer) (name : String) : AdminServer × Option AdminErr :=
  if s.started then (s, some AdminErr.registeringRequest)
  else
    match lookupA s.messages name with
    | none => (s, some AdminErr.messageUnknown)
    | some _ => ({ s with messages := eraseA s.messages name }, none)

/-- Embedding of strings.HasPrefix. -/
def hasPrefixGo (pre s : String) : Bool :=
  pre.data.isPrefixOf s.data

/-- Modelled from the spec: the text of the error value ErrorDecodeRequest,
defined in a source file that is not under src; the dispatcher wraps it in
front of the decode error text in the HTTP 500 body. -/
def errorDecodeRequestText : String := "adminport.decodeRequest"

/-- Outcome of one systemHandler invocation, up to handing the request to
the application queue.  panicked embeds the recovered reflect panic: the
deferred recover logs it and the handler returns with no response written. -/
inductive HandlerOutcome where
  | panicked
  | httpErrorResp (status : Nat) (body : String)
  | forwarded (statsRequest : Bool)
deriving DecidableEq, Repr

/-- Method httpServer.systemHandler: a stats-path request bypasses decoding;
any other path is looked up in the registry, where a missing entry makes
reflect.ValueOf(msg).Elem() panic on the nil interface (the msg == nil
branch returning 404 at admin_httpd.go:196 is unreachable); a decode failure
returns HTTP 500 carrying the decode error text.  The registry lookup key is
the full request path; statsPref is the prefix returned by c.StatsURLPath. -/
def systemHandler ( statsPref : String) (messages : List (String × String))
    (path : String) (decodeErr : Option String) : HandlerOutcome :=
  if hasPrefixGo statsPref path then HandlerOutcome.forwarded true
  else
    match lookupA messages path with
    | none => HandlerOutcome.panicked
    | some _ =>
      match decodeErr with
      | some e => HandlerOutcome.httpErrorResp 500 (errorDecodeRequestText ++ " " ++ e)
      | none => HandlerOutcome.forwarded false

/-- Claim C2.  The decode-failure half holds: a registered non-stats path
whose body fails to decode is answered with HTTP 500 carrying the error
text.  The unknown-path half fails: at the concrete failing input the
dispatcher panics in reflection on the nil message (the recover swallows it
and no response is written), instead of returning HTTP 404. -/
theorem systemHandler_behaviour :
    systemHandler "/adminport/stats" [] "/adminport/ping" none
      = HandlerOutcome.panicked ∧
    (∀ ( statsPref : String) (messages : List (String × String))
        (path m e : String),
      hasPrefixGo statsPref path = false →
      lookupA messages path = some m →
      systemHandler statsPref messages path (some e)
        = HandlerOutcome.httpErrorResp 500 (errorDecodeRequestText ++ " " ++ e)) := by
  refine ⟨by decide, ?_⟩
  intro statsPref messages path m e hpre hlook
  simp [systemHandler, hpre, hlook]

/-- Witness for systemHandler_behaviour: a registered message at path
/adminport/msg whose body decode fails. -/
theorem systemHandler_behaviour_witness :
    systemHandler "/adminport/stats" [("/adminport/msg", "msg")] "/adminport/msg"
        (some "bad payload")
      = HandlerOutcome.httpErrorResp 500 (errorDecodeRequestText ++ " " ++ "bad payload") :=
  systemHandler_behaviour.2 "/adminport/stats" [("/adminport/msg", "msg")]
    "/adminport/msg" "msg" "bad payload" (by decide) (by decide)

/-- Claim C3.  On a not-yet-started server with URL prefix /adminport,
registering message mymsg stores the key /adminportmymsg, but unregistering
mymsg looks up the bare name, reports ErrorMessageUnknown, and leaves the
entry in the registry: the register/unregister round-trip does not empty
the registry.  The missing-entry half of the claim (ErrorMessageUnknown)
holds at the same input. -/
theorem register_unregister_mismatch :
    (unregister (register (AdminServer.mk "/adminport" [] false) "mymsg").1 "mymsg").2
      = some AdminErr.messageUnknown ∧
    (unregister (register (AdminServer.mk "/adminport" [] false) "mymsg").1 "mymsg").1.messages
      = [("/adminportmymsg", "mymsg")] := by
  decide

/-! ### Coordinator embedding (src/secondary/manager/coordinator.go)

The quorum and epoch callbacks and the request-tracking maps of
CoordinatorState.  Epoch values are uint32 and only compared and stored, so
Nat is adequate; txnids and request ids are 64-bit, likewise only used as
map keys here. -/

/-- Method Coordinator.GetEnsembleSize: the configured peer list plus the
local node. -/
def GetEnsembleSize (peers : List String) : Nat := peers.length + 1

/-- Method Coordinator.HasQuorum: count (a Go int) compared against
int(ensembleSize/2) with uint64 integer division. -/
def HasQuorum (peers : List String) (count : Int) : Bool :=
  count > Int.ofNat (GetEnsembleSize peers / 2)

/-- Claim C6.  HasQuorum(count) is true exactly when count exceeds half the
ensemble size (integer division), the ensemble being the peers plus one. -/
theorem hasQuorum_iff :
    ∀ (peers : List String) (count : Nat),
      HasQuorum peers (Int.ofNat count) = true ↔ count > (peers.length + 1) / 2 := by
  intro peers count
  simp only [HasQuorum, GetEnsembleSize, gt_iff_lt, decide_eq_true_eq,
    Int.ofNat_eq_coe]
  omega

/-- Epoch-relevant state touched by the epoch notification callbacks: the
persisted accepted and current epochs (ServerConfig), the election site's
winning epoch, and the txn-state epoch. -/
structure CoordEpochs where
  acceptedEpoch : Nat
  currentEpoch : Nat
  winningEpoch : Nat
  txnEpoch : Nat
deriving DecidableEq, Repr

/-- Method Coordinator.NotifyNewAcceptedEpoch: persist the new epoch only
when strictly greater than the stored one. -/
def NotifyNewAcceptedEpoch (s : CoordEpochs) (epoch : Nat) : CoordEpochs :=
  if s.acceptedEpoch < epoch then { s with acceptedEpoch := epoch } else s

/-- Method Coordinator.NotifyNewCurrentEpoch: when strictly greater than
the stored current epoch, persist it, update the election site's winning
epoch, and rebase the txn-state epoch; otherwise do nothing. -/
def NotifyNewCurrentEpoch (s : CoordEpochs) (epoch : Nat) : CoordEpochs :=
  if s.currentEpoch < epoch then
    { s with currentEpoch := epoch, winningEpoch := epoch, txnEpoch := epoch }
  else s

/-- Claim C7.  Both epoch notifications are idempotent and monotone: the
stored epoch becomes the maximum of old and new (hence is non-decreasing),
a notification not strictly above the stored value is a no-op, and a
strictly greater current epoch also updates the election site's winning
epoch and rebases the txn-state epoch. -/
theorem epoch_notifications_monotone_idempotent :
    ∀ (s : CoordEpochs) (e : Nat),
      (NotifyNewAcceptedEpoch s e).acceptedEpoch = max s.acceptedEpoch e ∧
      NotifyNewAcceptedEpoch (NotifyNewAcceptedEpoch s e) e = NotifyNewAcceptedEpoch s e ∧
      (e ≤ s.acceptedEpoch → NotifyNewAcceptedEpoch s e = s) ∧
      (NotifyNewCurrentEpoch s e).currentEpoch = max s.currentEpoch e ∧
      NotifyNewCurrentEpoch (NotifyNewCurrentEpoch s e) e = NotifyNewCurrentEpoch s e ∧
      (e ≤ s.currentEpoch → NotifyNewCurrentEpoch s e = s) ∧
      (s.currentEpoch < e →
        (NotifyNewCurrentEpoch s e).winningEpoch = e ∧
        (NotifyNewCurrentEpoch s e).txnEpoch = e) := by
  intro s e
  refine ⟨?_, ?_, ?_, ?_, ?_, ?_, ?_⟩
  · by_cases h : s.acceptedEpoch < e <;> simp [NotifyNewAcceptedEpoch, h] <;> omega
  · by_cases h : s.acceptedEpoch < e
    · simp [NotifyNewAcceptedEpoch, h]
    · simp [NotifyNewAcceptedEpoch, h]
  · intro h
    simp [NotifyNewAcceptedEpoch, Nat.not_lt.mpr h]
  · by_cases h : s.currentEpoch < e <;> simp [NotifyNewCurrentEpoch, h] <;> omega
  · by_cases h : s.currentEpoch < e
    · simp [NotifyNewCurrentEpoch, h]
    · simp [NotifyNewCurrentEpoch, h]
  · intro h
    simp [NotifyNewCurrentEpoch, Nat.not_lt.mpr h]
  · intro h
    simp [NotifyNewCurrentEpoch, h]

/-- Witness for epoch_notifications_monotone_idempotent at stored epochs
(1, 2) and notified epochs 1 (no-op) and 5 (advance). -/
theorem epoch_notifications_witness :
    NotifyNewAcceptedEpoch (CoordEpochs.mk 1 2 0 0) 1 = CoordEpochs.mk 1 2 0 0 ∧
    (NotifyNewCurrentEpoch (CoordEpochs.mk 1 2 0 0) 5).winningEpoch = 5 ∧
    (NotifyNewCurrentEpoch (CoordEpochs.mk 1 2 0 0) 5).txnEpoch = 5 :=
  ⟨(epoch_notifications_monotone_idempotent (CoordEpochs.mk 1 2 0 0) 1).2.2.1
      (by decide),
   ((epoch_notifications_monotone_idempotent (CoordEpochs.mk 1 2 0 0) 5).2.2.2.2.2.2
      (by decide)).1,
   ((epoch_notifications_monotone_idempotent (CoordEpochs.mk 1 2 0 0) 5).2.2.2.2.2.2
      (by decide)).2⟩

/-- Request-tracking collections of CoordinatorState: pendings keyed by
request id and proposals keyed by txnid, both holding request handles
(represented by a handle identity). -/
structure CoordReqState where
  pendings : List (Nat × Nat)
  proposals : List (Nat × Nat)
deriving DecidableEq, Repr

/-- Method Coordinator.AddPendingRequest: record the dequeued handle under
its request id. -/
def AddPendingRequest (st : CoordReqState) (reqId handle : Nat) : CoordReqState :=
  { st with pendings := setA st.pendings reqId handle }

/-- Method Coordinator.updateRequestOnNewProposal: when the proposal
originates from this host and the request id is pending, move the handle
from pendings to proposals under the proposal's txnid. -/
def updateRequestOnNewProposal (st : CoordReqState) (fid selfFid : String)
    (reqId txnid : Nat) : CoordReqState :=
  if fid = selfFid then
    match lookupA st.pendings reqId with
    | some handle =>
      { pendings := eraseA st.pendings reqId,
        proposals := setA st.proposals txnid handle }
    | none => st
  else st

/-- Method Coordinator.updateRequestOnCommit: when the txnid is a tracked
proposal, delete it and signal the waiting handle (returned as some);
otherwise signal nobody. -/
def updateRequestOnCommit (st : CoordReqState) (txnid : Nat) :
    CoordReqState × Option Nat :=
  match lookupA st.proposals txnid with
  | some handle => ({ st with proposals := eraseA st.proposals txnid }, some handle)
  | none => (st, none)

/-- Well-formedness of the request-tracking state: request ids and txnids
are unique in their maps, and no handle occurs twice across the two stages
(each handle is created once and sits in at most one stage). -/
def TrackInv (st : CoordReqState) : Prop :=
  (keysA st.pendings).Nodup ∧ (keysA st.proposals).Nodup ∧
  (valuesA st.pendings ++ valuesA st.proposals).Nodup

theorem valuesA_eraseA_sublist {κ α : Type} [DecidableEq κ] (m : List (κ × α)) (k : κ) :
    (valuesA (eraseA m k)).Sublist (valuesA m) :=
  (List.filter_sublist m).map Prod.snd

theorem keysA_eraseA_sublist {κ α : Type} [DecidableEq κ] (m : List (κ × α)) (k : κ) :
    (keysA (eraseA m k)).Sublist (keysA m) :=
  (List.filter_sublist m).map Prod.fst

theorem not_mem_valuesA_eraseA {m : List (Nat × Nat)} {k h : Nat}
    (hv : (valuesA m).Nodup) (hl : lookupA m k = some h) :
    h ∉ valuesA (eraseA m k) := by
  intro hmem
  simp only [valuesA, List.mem_map] at hmem
  obtain ⟨⟨k2, v2⟩, hp, he⟩ := hmem
  simp only at he
  rw [he] at hp
  have hk2 : ¬ k2 = k := by simpa using (List.mem_filter.mp hp).2
  have hp2 : (k2, h) ∈ m := mem_eraseA hp
  have hp1 : (k, h) ∈ m := lookupA_mem hl
  have := List.inj_on_of_nodup_map (f := Prod.snd) hv hp1 hp2 rfl
  exact hk2 (congrArg Prod.fst this).symm

/-- Claim C8.  A commit for a tracked txnid signals the waiting handle and
removes the proposal in the same step; a second commit for the same txnid
signals nobody.  The well-formedness invariant (unique request ids, unique
txnids, and every handle in at most one of pendings and proposals) is
preserved by AddPendingRequest for a fresh handle, by
updateRequestOnNewProposal for a fresh txnid, and by updateRequestOnCommit
unconditionally; under it no handle sits in both stages at once. -/
theorem commit_signals_once_and_stage_disjoint :
    (∀ (st : CoordReqState) (txnid h : Nat),
      lookupA st.proposals txnid = some h →
        (updateRequestOnCommit st txnid).2 = some h ∧
        lookupA (updateRequestOnCommit st txnid).1.proposals txnid = none) ∧
    (∀ (st : CoordReqState) (txnid : Nat),
      (updateRequestOnCommit (updateRequestOnCommit st txnid).1 txnid).2 = none) ∧
    (∀ (st : CoordReqState) (reqId h : Nat),
      TrackInv st → reqId ∉ keysA st.pendings →
      h ∉ valuesA st.pendings ++ valuesA st.proposals →
      TrackInv (AddPendingRequest st reqId h)) ∧
    (∀ (st : CoordReqState) (fid selfFid : String) (reqId txnid : Nat),
      TrackInv st → txnid ∉ keysA st.proposals →
      TrackInv (updateRequestOnNewProposal st fid selfFid reqId txnid)) ∧
    (∀ (st : CoordReqState) (txnid : Nat),
      TrackInv st → TrackInv (updateRequestOnCommit st txnid).1) ∧
    (∀ (st : CoordReqState) (h : Nat),
      TrackInv st → ¬(h ∈ valuesA st.pendings ∧ h ∈ valuesA st.proposals)) := by
  refine ⟨?_, ?_, ?_, ?_, ?_, ?_⟩
  · intro st txnid h hl
    refine ⟨?_, ?_⟩
    · simp [updateRequestOnCommit, hl]
    · simp [updateRequestOnCommit, hl, lookupA_eraseA]
  · intro st txnid
    cases hl : lookupA st.proposals txnid with
    | none => simp [updateRequestOnCommit, hl]
    | some h => simp [updateRequestOnCommit, hl, lookupA_eraseA]
  · intro st reqId h hInv hk hv
    obtain ⟨h1, h2, h3⟩ := hInv
    refine ⟨?_, h2, ?_⟩
    · simp only [AddPendingRequest, setA_not_mem_key _ hk, keysA, List.map_append,
        List.map_cons, List.map_nil]
      rw [List.nodup_append]
      refine ⟨h1, List.nodup_singleton _, ?_⟩
      intro a ha hb
      simp at hb
      subst hb
      exact hk ha
    · simp only [AddPendingRequest, setA_not_mem_key _ hk, valuesA, List.map_append,
        List.map_cons, List.map_nil]
      rw [List.nodup_append]
      refine ⟨?_, ?_, ?_⟩
      · rw [List.nodup_append]
        refine ⟨by simpa [valuesA] using (List.nodup_append.mp h3).1,
          List.nodup_singleton _, ?_⟩
        intro a ha hb
        simp at hb
        subst hb
        exact hv (List.mem_append.mpr (Or.inl ha))
      · exact (List.nodup_append.mp h3).2.1
      · intro a ha hb
        rcases List.mem_append.mp ha with ha | ha
        · exact (List.nodup_append.mp h3).2.2 ha hb
        · simp at ha
          subst ha
          exact hv (List.mem_append.mpr (Or.inr hb))
  · intro st fid selfFid reqId txnid hInv hk
    by_cases hf : fid = selfFid
    · cases hl : lookupA st.pendings reqId with
      | none => simpa [updateRequestOnNewProposal, hf, hl] using hInv
      | some handle =>
        obtain ⟨h1, h2, h3⟩ := hInv
        have hvp : (valuesA st.pendings).Nodup := (List.nodup_append.mp h3).1
        have hvq : (valuesA st.proposals).Nodup := (List.nodup_append.mp h3).2.1
        have hdisj := (List.nodup_append.mp h3).2.2
        have hmemp : handle ∈ valuesA st.pendings := by
          simpa [valuesA] using List.mem_map_of_mem Prod.snd (lookupA_mem hl)
        have hnp := not_mem_valuesA_eraseA hvp hl
        have hnq : handle ∉ valuesA st.proposals := hdisj hmemp
        have hsubp := valuesA_eraseA_sublist st.pendings reqId
        simp only [updateRequestOnNewProposal, hf, if_true, hl]
        refine ⟨?_, ?_, ?_⟩
        · exact List.Nodup.sublist (keysA_eraseA_sublist st.pendings reqId) h1
        · simp only [setA_not_mem_key _ hk, keysA, List.map_append, List.map_cons,
            List.map_nil]
          rw [List.nodup_append]
          refine ⟨h2, List.nodup_singleton _, ?_⟩
          intro a ha hb
          simp at hb
          subst hb
          exact hk ha
        · simp only [setA_not_mem_key _ hk, valuesA, List.map_append, List.map_cons,
            List.map_nil]
          rw [List.nodup_append]
          refine ⟨List.Nodup.sublist hsubp hvp, ?_, ?_⟩
          · rw [List.nodup_append]
            refine ⟨hvq, List.nodup_singleton _, ?_⟩
            intro a ha hb
            simp at hb
            subst hb
            exact hnq ha
          · intro a ha hb
            rcases List.mem_append.mp hb with hb | hb
            · exact hdisj (hsubp.mem ha) hb
            · simp at hb
              subst hb
              exact hnp ha
    · simpa [updateRequestOnNewProposal, hf] using hInv
  · intro st txnid hInv
    obtain ⟨h1, h2, h3⟩ := hInv
    cases hl : lookupA st.proposals txnid with
    | none => exact (by simpa [updateRequestOnCommit, hl] using And.intro h1 (And.intro h2 h3))
    | some handle =>
      simp only [updateRequestOnCommit, hl]
      refine ⟨h1, ?_, ?_⟩
      · exact List.Nodup.sublist (keysA_eraseA_sublist st.proposals txnid) h2
      · exact List.Nodup.sublist
          (List.Sublist.append_left (valuesA_eraseA_sublist st.proposals txnid) _) h3
  · intro st h hInv hc
    exact (List.nodup_append.mp hInv.2.2).2.2 hc.1 hc.2

/-- Witness for commit_signals_once_and_stage_disjoint: a state holding one
pending request (id 1, handle 10) and one proposal (txnid 5, handle 11); the
commit of txnid 5 signals handle 11 and removes the proposal, and adding a
fresh pending handle preserves the invariant. -/
theorem commit_signals_once_witness :
    ((updateRequestOnCommit (CoordReqState.mk [(1, 10)] [(5, 11)]) 5).2 = some 11 ∧
      lookupA (updateRequestOnCommit (CoordReqState.mk [(1, 10)] [(5, 11)]) 5).1.proposals 5
        = none) ∧
    TrackInv (AddPendingRequest (CoordReqState.mk [(1, 10)] [(5, 11)]) 2 12) :=
  ⟨commit_signals_once_and_stage_disjoint.1 (CoordReqState.mk [(1, 10)] [(5, 11)]) 5 11
      (by decide),
   commit_signals_once_and_stage_disjoint.2.2.1 (CoordReqState.mk [(1, 10)] [(5, 11)]) 2 12
      ⟨by decide, by decide, by decide⟩ (by decide) (by decide)⟩

/-! ### Compaction scheduler embedding (compactionDaemon.needsCompaction)

The wall-clock reading time.Now().Clock() and the weekday name are inputs;
the float fragmentation comparison GetFragmentation() >= float64(min_frag)
enters as a boolean input, since the circular path under scrutiny never
consults it. -/

/-- Embedding of strings.ToLower on one character, restricted to ASCII (the
configuration values involved are ASCII). -/
def asciiLowerChar (c : Char) : Char :=
  if 'A' ≤ c ∧ c ≤ 'Z' then Char.ofNat (c.toNat + 32) else c

/-- Embedding of strings.ToLower restricted to ASCII strings. -/
def asciiLower (s : String) : String :=
  String.mk (s.data.map asciiLowerChar)

/-- ASCII whitespace test for the TrimSpace embedding. -/
def isSpaceGo (c : Char) : Bool :=
  c = ' ' || c = '\t' || c = '\n' || c = '\r'

/-- Embedding of strings.TrimSpace restricted to ASCII whitespace. -/
def trimSpace (s : String) : String :=
  String.mk (((s.data.dropWhile isSpaceGo).reverse.dropWhile isSpaceGo).reverse)

/-- Leading decimal number of a character list (one fmt.Sscanf %d field for
the nonnegative decimal values occurring in interval strings). -/
def parseNatCs (cs : List Char) : Option (Nat × List Char) :=
  let ds := cs.takeWhile Char.isDigit
  if ds.isEmpty then none
  else some (ds.foldl (fun a c => a * 10 + (c.toNat - 48)) 0, cs.dropWhile Char.isDigit)

/-- Expect one literal character. -/
def expectChar (c : Char) : List Char → Option (List Char)
  | [] => none
  | x :: t => if x = c then some t else none

/-- Embedding of fmt.Sscanf(interval, "%d:%d,%d:%d", ...): all four fields
must match (n = 4 and err = nil); input past the fourth field is ignored. -/
def parseInterval (s : String) : Option (Nat × Nat × Nat × Nat) := do
  let p1 ← parseNatCs s.data
  let r2 ← expectChar ':' p1.2
  let p2 ← parseNatCs r2
  let r4 ← expectChar ',' p2.2
  let p3 ← parseNatCs r4
  let r6 ← expectChar ':' p3.2
  let p4 ← parseNatCs r6
  pure (p1.1, p2.1, p3.1, p4.1)

/-- Method compactionDaemon.needsCompaction.  Full mode checks min_size then
min_frag; circular mode first gates on the configured interval window (a
failed Sscanf leaves the gate open, as does the sentinel 00:00,00:00), then
returns true only when the current weekday matches a configured day name. -/
def needsCompaction (mode : String) (diskSize minSize : Nat) (fragGeMinFrag : Bool)
    (interval : String) (nowHr nowMin : Nat) (daysOfWeek : List String)
    (today : String) : Bool :=
  if asciiLower mode = "full" then
    if diskSize > minSize then
      if fragGeMinFrag then true else false
    else false
  else
    let isCompactionInterval :=
      if interval = "00:00,00:00" then true
      else
        match parseInterval interval with
        | some (startHr, startMn, endHr, endMn) =>
          let startMin := startMn + startHr * 60
          let endMin := endMn + endHr * 60
          let mins := nowMin + nowHr * 60
          if mins < startMin ∨ mins > endMin then false else true
        | none => true
    if !isCompactionInterval then false
    else if daysOfWeek.any (fun day => asciiLower (trimSpace day) = asciiLower today)
      then true
    else false

/-- Claim C9.  With circular mode, interval 02:00,04:00 and days_of_week
Sunday, a wall clock outside both the window and the weekday yields no
compaction, whatever the fragmentation and size statistics are. -/
theorem circular_compaction_gated :
    ∀ (diskSize minSize : Nat) (fragGeMinFrag : Bool) (hr mn : Nat) (today : String),
      (mn + hr * 60 < 120 ∨ mn + hr * 60 > 240) →
      asciiLower today ≠ "sunday" →
      needsCompaction "circular" diskSize minSize fragGeMinFrag "02:00,04:00" hr mn
        ["Sunday"] today = false := by
  intro diskSize minSize fragGeMinFrag hr mn today hout _
  have hp : parseInterval "02:00,04:00" = some (2, 0, 4, 0) := by decide
  have hmode : ¬ (asciiLower "circular" = "full") := by decide
  have hsent : ¬ ((("02:00,04:00" : String)) = "00:00,00:00") := by decide
  have hcond : mn + hr * 60 < 0 + 2 * 60 ∨ mn + hr * 60 > 0 + 4 * 60 := by omega
  simp only [needsCompaction, if_neg hmode, if_neg hsent, hp, if_pos hcond,
    Bool.not_false, if_true]

/-- Witness for circular_compaction_gated at 10:00 on a Monday with
fragmentation over threshold and a large disk size. -/
theorem circular_compaction_gated_witness :
    needsCompaction "circular" 1000000 0 true "02:00,04:00" 10 0 ["Sunday"] "Monday"
      = false :=
  circular_compaction_gated 1000000 0 true 10 0 "Monday" (by decide) (by decide)
